import Mathlib

/-!
Shallow embedding of the Ollama-PDFbot pipeline (src/pdf_extractor.py,
src/llm_pipeline.py, src/file_organizer.py, src/main.py) and proofs of the
specification claims about it.  External effects (the PDF reader, the LLM
endpoint, `json.loads`, the filesystem) are modelled as explicit parameters:
a fallible call is an `Except String` value holding either its result or the
raised exception's message.
-/

namespace PDFBot

/-! ## Python string primitives -/

/-- Python `str.strip()` on a character list: drop whitespace at both ends. -/
def pyStripL (l : List Char) : List Char :=
  ((l.dropWhile Char.isWhitespace).reverse.dropWhile Char.isWhitespace).reverse

/-- Python `str.strip()` on a string. -/
def pyStrip (s : String) : String := ⟨pyStripL s.data⟩

/-- Python `s[:n]`: the first `n` characters. -/
def pyTake (n : Nat) (s : String) : String := ⟨s.data.take n⟩

/-- Python `str.split(sep)` for a single-character separator. -/
def pySplitChar (c : Char) : List Char → List (List Char)
  | [] => [[]]
  | x :: xs =>
    if x = c then [] :: pySplitChar c xs
    else
      match pySplitChar c xs with
      | [] => [[x]]
      | h :: t => (x :: h) :: t

/-- Python `" ".join(pieces)`. -/
def joinSpace : List (List Char) → List Char
  | [] => []
  | [x] => x
  | x :: xs => x ++ ' ' :: joinSpace xs

/-- Python `str.find(c)`: index of the first occurrence, `-1` if absent. -/
def pyFind (l : List Char) (c : Char) : Int :=
  match l.findIdx? (fun x => x = c) with
  | some i => (i : Int)
  | none => -1

/-- Python `str.rfind(c)`: index of the last occurrence, `-1` if absent. -/
def pyRFind (l : List Char) (c : Char) : Int :=
  match l.reverse.findIdx? (fun x => x = c) with
  | some i => ((l.length - 1 - i : Nat) : Int)
  | none => -1

/-- Python `s[a:b]` for `0 ≤ a ≤ b`. -/
def pySlice (l : List Char) (a b : Nat) : List Char := (l.take b).drop a

/-! ## FileOrganizer._sanitize_folder_name (src/file_organizer.py, lines 93-111) -/

/-- Python `name.replace(c, "_")` for a single character `c`. -/
def replaceChar (c : Char) (l : List Char) : List Char :=
  l.map fun ch => if ch = c then '_' else ch

/-- The characters of the source's `invalid_chars = '<>:"|?*/'`. -/
def invalidChars : List Char := ['<', '>', ':', '\"', '|', '?', '*', '/']

/-- The replacement phase of `_sanitize_folder_name`: replace spaces with
underscores, then replace each invalid character with an underscore. -/
def sanitizeCore (name : List Char) : List Char :=
  invalidChars.foldl (fun acc c => replaceChar c acc) (replaceChar ' ' name)

/-- `_sanitize_folder_name` on a character list: the replacement phase
followed by `name[:50] if name else "unknown"`. -/
def sanitizeFolderNameL (name : List Char) : List Char :=
  if sanitizeCore name = [] then "unknown".data else (sanitizeCore name).take 50

/-- `FileOrganizer._sanitize_folder_name`. -/
def sanitizeFolderName (name : String) : String := ⟨sanitizeFolderNameL name.data⟩

/-- Characters eliminated by sanitization: the space and the invalid set. -/
def badChars : List Char := ' ' :: invalidChars

lemma mem_replaceChar {x : Char} {c : Char} {l : List Char}
    (h : x ∈ replaceChar c l) : x = '_' ∨ (x ∈ l ∧ x ≠ c) := by
  rcases List.mem_map.1 h with ⟨y, hy, hmap⟩
  by_cases hyc : y = c
  · left; rw [if_pos hyc] at hmap; exact hmap.symm
  · right; rw [if_neg hyc] at hmap; exact ⟨hmap ▸ hy, hmap ▸ hyc⟩

lemma replaceChar_eq_self {c : Char} {l : List Char}
    (h : ∀ x ∈ l, x ≠ c) : replaceChar c l = l := by
  unfold replaceChar
  rw [List.map_congr_left (fun x hx => if_neg (h x hx))]
  exact List.map_id l

lemma mem_foldl_replace {cs : List Char} {l : List Char} {x : Char}
    (h : x ∈ cs.foldl (fun acc c => replaceChar c acc) l) :
    x = '_' ∨ (x ∈ l ∧ x ∉ cs) := by
  induction cs generalizing l with
  | nil => exact Or.inr ⟨h, by simp⟩
  | cons c cs ih =>
    rcases ih (by simpa using h) with h1 | ⟨h2, h3⟩
    · exact Or.inl h1
    · rcases mem_replaceChar h2 with h4 | ⟨h5, h6⟩
      · exact Or.inl h4
      · exact Or.inr ⟨h5, by simp [h3, h6]⟩

lemma foldl_replace_eq_self {cs : List Char} {l : List Char}
    (h : ∀ x ∈ l, x ∉ cs) : cs.foldl (fun acc c => replaceChar c acc) l = l := by
  induction cs generalizing l with
  | nil => rfl
  | cons c cs ih =>
    have hc : replaceChar c l = l :=
      replaceChar_eq_self (fun x hx => by
        have := h x hx; simp at this; exact this.1)
    simp only [List.foldl_cons, hc]
    exact ih (fun x hx => by have := h x hx; simp at this; exact this.2)

lemma unknown_data_eq : "unknown".data = ['u', 'n', 'k', 'n', 'o', 'w', 'n'] := rfl

lemma mem_sanitizeL_not_bad {l : List Char} {x : Char}
    (h : x ∈ sanitizeFolderNameL l) : x ∉ badChars := by
  unfold sanitizeFolderNameL at h
  split at h
  · have hall : ∀ y ∈ ("unknown".data : List Char), y ∉ badChars := by decide
    exact hall x h
  · have h1 : x ∈ sanitizeCore l := List.mem_of_mem_take h
    unfold sanitizeCore at h1
    rcases mem_foldl_replace h1 with h2 | ⟨h3, h4⟩
    · subst h2; decide
    · rcases mem_replaceChar h3 with h5 | ⟨_, h7⟩
      · subst h5; decide
      · intro hb
        unfold badChars at hb
        rcases List.mem_cons.1 hb with hb1 | hb2
        · exact h7 hb1
        · exact h4 hb2

lemma sanitizeCore_of_not_bad {l : List Char} (h : ∀ x ∈ l, x ∉ badChars) :
    sanitizeCore l = l := by
  unfold sanitizeCore
  have hsp : replaceChar ' ' l = l :=
    replaceChar_eq_self (fun x hx => by
      have := h x hx; simp [badChars] at this; exact this.1)
  rw [hsp]
  exact foldl_replace_eq_self (fun x hx => by
    have := h x hx; simp [badChars, invalidChars] at this ⊢
    exact this.2)

lemma sanitizeL_of_not_bad {l : List Char} (hne : l ≠ [])
    (hlen : l.length ≤ 50) (h : ∀ x ∈ l, x ∉ badChars) :
    sanitizeFolderNameL l = l := by
  unfold sanitizeFolderNameL
  rw [sanitizeCore_of_not_bad h, if_neg hne]
  exact List.take_of_length_le hlen

/-- Idempotence of sanitization at the character-list level. -/
lemma sanitizeL_idem (l : List Char) :
    sanitizeFolderNameL (sanitizeFolderNameL l) = sanitizeFolderNameL l := by
  have hbad : ∀ x ∈ sanitizeFolderNameL l, x ∉ badChars :=
    fun x hx => mem_sanitizeL_not_bad hx
  have hne : sanitizeFolderNameL l ≠ [] := by
    unfold sanitizeFolderNameL
    split
    · rw [unknown_data_eq]; simp
    · next hnil =>
      rcases List.exists_cons_of_ne_nil hnil with ⟨a, t, ht⟩
      simp [ht]
  have hlen : (sanitizeFolderNameL l).length ≤ 50 := by
    unfold sanitizeFolderNameL
    split
    · rw [unknown_data_eq]; simp
    · simp
  exact sanitizeL_of_not_bad hne hlen hbad

/-- C9: folder-name sanitization is idempotent:
`sanitize(sanitize(x)) == sanitize(x)` for every topic string `x`. -/
theorem sanitize_idempotent (s : String) :
    sanitizeFolderName (sanitizeFolderName s) = sanitizeFolderName s := by
  unfold sanitizeFolderName
  exact congrArg String.mk (sanitizeL_idem s.data)

/-! ## PDFExtractor.extract_text (src/pdf_extractor.py, lines 24-66)

The external PDF reader is modelled by the list of per-page texts it returns
(`page.extract_text()` for each page of `reader.pages`); the filesystem check
`pdf_path.exists()` is a boolean parameter. -/

/-- The exceptions `extract_text` can raise on its own. -/
inductive ExtractError where
  | fileNotFound (msg : String)
  | noPages (msg : String)
  | noReadableText (msg : String)
deriving DecidableEq

/-- Python truthiness of the `max_pages` attribute (`None` and `0` are falsy). -/
def maxPagesTruthy : Option Nat → Bool
  | none => false
  | some n => n != 0

/-- `pages_to_extract = min(self.max_pages, num_pages) if self.max_pages else num_pages`. -/
def pagesToExtract (maxPages : Option Nat) (numPages : Nat) : Nat :=
  if maxPagesTruthy maxPages then min (maxPages.getD 0) numPages else numPages

/-- `PDFExtractor.extract_text`: not-found check, empty-document check, loop
over the first `pages_to_extract` pages keeping pages with non-blank text,
no-readable-text check, then `"\n".join(text_content)`. -/
def extractText (pathExists : Bool) (maxPages : Option Nat) (pages : List String) :
    Except ExtractError String :=
  if !pathExists then
    .error (.fileNotFound "PDF file not found")
  else
    let numPages := pages.length
    if numPages = 0 then .error (.noPages "PDF has no pages")
    else
      let textContent := (pages.take (pagesToExtract maxPages numPages)).filter
        (fun t => pyStrip t != "")
      if textContent = [] then .error (.noReadableText "No readable text found in PDF")
      else .ok (String.intercalate "\n" textContent)

/-- C4 counterexample: with a configured `max_pages` of `0` (falsy in Python),
`extract_text` takes all pages of a two-page document instead of
`min(0, 2) = 0` pages, and succeeds with both pages' text. -/
theorem max_pages_zero_extracts_all :
    pagesToExtract (some 0) 2 ≠ min 0 2 ∧
    extractText true (some 0) ["a", "b"] = Except.ok "a\nb" := by
  constructor
  · decide
  · rfl

/-- C4 (amended): for every positive configured `max_pages`, `extract_text`
includes exactly the first `min(max_pages, actual_pages)` pages, and any
successful result is the newline-joined concatenation, in page order, of the
non-blank texts among those pages; an unset or zero `max_pages` includes all
pages. -/
theorem extract_min_pages_positive (m : Nat) (hm : 0 < m) (pages : List String) :
    pagesToExtract (some m) pages.length = min m pages.length ∧
    pagesToExtract none pages.length = pages.length ∧
    pagesToExtract (some 0) pages.length = pages.length ∧
    (∀ s, extractText true (some m) pages = Except.ok s →
      s = String.intercalate "\n"
        ((pages.take (min m pages.length)).filter (fun t => pyStrip t != ""))) := by
  have htr : maxPagesTruthy (some m) = true := by
    simp [maxPagesTruthy]; omega
  have hpg : pagesToExtract (some m) pages.length = min m pages.length := by
    simp [pagesToExtract, htr, Option.getD]
  refine ⟨hpg, rfl, rfl, ?_⟩
  intro s hs
  unfold extractText at hs
  simp only [Bool.not_true, if_false] at hs
  by_cases hlen : pages.length = 0
  · rw [if_pos hlen] at hs; cases hs
  · rw [if_neg hlen] at hs
    rw [hpg] at hs
    by_cases hfil : (pages.take (min m pages.length)).filter (fun t => pyStrip t != "") = []
    · rw [if_pos hfil] at hs; cases hs
    · rw [if_neg hfil] at hs
      exact (Except.ok.inj hs).symm

/-- C4 witness: the amended theorem at `max_pages = 1` on a concrete
two-page document. -/
theorem extract_min_pages_witness :
    pagesToExtract (some 1) (["a", "b"] : List String).length =
      min 1 (["a", "b"] : List String).length ∧
    pagesToExtract none (["a", "b"] : List String).length =
      (["a", "b"] : List String).length ∧
    pagesToExtract (some 0) (["a", "b"] : List String).length =
      (["a", "b"] : List String).length ∧
    (∀ s, extractText true (some 1) ["a", "b"] = Except.ok s →
      s = String.intercalate "\n"
        (((["a", "b"] : List String).take (min 1 (["a", "b"] : List String).length)).filter
          (fun t => pyStrip t != ""))) :=
  extract_min_pages_positive 1 (by decide) ["a", "b"]

/-- C8: `extract_text` fails with the not-found error when the path does not
exist, fails with the empty-document error when the reader reports zero pages,
fails with the no-readable-text error when every included page's text is
blank, and a zero-page file never yields a success result. -/
theorem extract_text_error_paths (maxPages : Option Nat) (pages : List String) :
    extractText false maxPages pages = Except.error (.fileNotFound "PDF file not found") ∧
    extractText true maxPages [] = Except.error (.noPages "PDF has no pages") ∧
    (pages ≠ [] →
      (∀ t ∈ pages.take (pagesToExtract maxPages pages.length), pyStrip t = "") →
      extractText true maxPages pages =
        Except.error (.noReadableText "No readable text found in PDF")) ∧
    (∀ s, extractText true maxPages [] ≠ Except.ok s) := by
  refine ⟨rfl, rfl, ?_, by intro s h; cases h⟩
  intro hne hblank
  unfold extractText
  simp only [Bool.not_true, if_false]
  rw [if_neg (fun h => hne (List.length_eq_zero.1 h))]
  have hfil : (pages.take (pagesToExtract maxPages pages.length)).filter
      (fun t => pyStrip t != "") = [] := by
    rw [List.filter_eq_nil_iff]
    intro t ht
    simp [hblank t ht]
  rw [if_pos hfil]
  rfl

/-- C8 witness: concrete runs through each error path, with `max_pages = 2`
and a document whose single included page is blank. -/
theorem extract_text_error_paths_witness :
    extractText false (some 2) [" x"] = Except.error (.fileNotFound "PDF file not found") ∧
    extractText true (some 2) [] = Except.error (.noPages "PDF has no pages") ∧
    extractText true (some 2) [" "] =
      Except.error (.noReadableText "No readable text found in PDF") := by
  have h := extract_text_error_paths (some 2) [" "]
  refine ⟨extract_text_error_paths (some 2) [" x"] |>.1, h.2.1, ?_⟩
  exact h.2.2.1 (by decide) (by decide)

/-! ## PDFAnalysisPipeline (src/llm_pipeline.py)

The Ollama call `self.llm.invoke(prompt)` is a parameter of type
`Except String String`: its response text, or the message of the exception it
raised.  `json.loads` is a parameter too: applied to the object slice it
returns the `str()` of the values at keys "topic" and "summary" (when
present), or `none` when it raises `json.JSONDecodeError`. -/

/-- Outcome of a successful `json.loads` on the sliced object text, as
consumed by `_parse_response`: `str(parsed.get("topic", ...))` and
`str(parsed.get("summary", ...))` inputs. -/
structure ParsedObj where
  topicStr : Option String
  summaryStr : Option String
deriving DecidableEq

/-- `json_start = response.find("{")`, `json_end = response.rfind("}") + 1`,
`json_start >= 0 and json_end > json_start`. -/
def hasObjSpan (r : String) : Prop :=
  0 ≤ pyFind r.data '\x7b' ∧ pyFind r.data '\x7b' < pyRFind r.data '\x7d' + 1

instance (r : String) : Decidable (hasObjSpan r) := by
  unfold hasObjSpan; infer_instance

/-- `json_str = response[json_start:json_end]`. -/
def objSlice (r : String) : String :=
  ⟨pySlice r.data (pyFind r.data '\x7b').toNat (pyRFind r.data '\x7d' + 1).toNat⟩

/-- The free-text fallback branch of `_parse_response`:
`{"topic": "Uncategorized", "summary": " ".join(response.strip().split("\n"))[:200]}`. -/
def fallbackParse (response : String) : List (String × String) :=
  [("topic", "Uncategorized"),
   ("summary", pyTake 200 ⟨joinSpace (pySplitChar '\n' (pyStripL response.data))⟩)]

/-- `PDFAnalysisPipeline._parse_response`. -/
def parseResponse (jsonLoads : String → Option ParsedObj) (response : String) :
    List (String × String) :=
  if hasObjSpan response then
    match jsonLoads (objSlice response) with
    | some parsed =>
      [("topic", pyStrip (parsed.topicStr.getD "Uncategorized")),
       ("summary", pyStrip (pyTake 200 (parsed.summaryStr.getD "")))]
    | none => fallbackParse response
  else fallbackParse response

/-- The response contains no valid JSON object: either no `{`...`}` span
exists, or `json.loads` fails on the sliced text. -/
def noValidJsonFound (jsonLoads : String → Option ParsedObj) (r : String) : Prop :=
  ¬hasObjSpan r ∨ jsonLoads (objSlice r) = none

instance (jsonLoads : String → Option ParsedObj) (r : String) :
    Decidable (noValidJsonFound jsonLoads r) := by
  unfold noValidJsonFound; infer_instance

/-- The dictionary returned when the model call raises. -/
def failedDict (e : String) : List (String × String) :=
  [("topic", "Uncategorized"), ("summary", "Failed to process"), ("error", e)]

/-- `PDFAnalysisPipeline.generate_topic_and_summary`: invoke the model, parse
the response; any exception in the try block is caught and converted into the
failure dictionary. -/
def generateTopicAndSummary (jsonLoads : String → Option ParsedObj)
    (llmInvoke : Except String String) : Except String (List (String × String)) :=
  match llmInvoke.map (parseResponse jsonLoads) with
  | .ok r => .ok r
  | .error e => .ok (failedDict e)

/-- The body of `extract_key_entities` after the model responded: locate the
first `[`...`]` span and `json.loads` it, raising `JSONDecodeError` when the
parse fails, returning `[]` when no span exists. -/
def entitySpanResult (jsonLoadsArr : String → Option (List String))
    (response : String) : Except String (List String) :=
  if 0 ≤ pyFind response.data '[' ∧
      pyFind response.data '[' < pyRFind response.data ']' + 1 then
    match jsonLoadsArr ⟨pySlice response.data (pyFind response.data '[').toNat
        (pyRFind response.data ']' + 1).toNat⟩ with
    | some l => Except.ok l
    | none => Except.error "JSONDecodeError"
  else Except.ok []

/-- `PDFAnalysisPipeline.extract_key_entities`: invoke the model, then the
span/parse body; the surrounding except-clause catches every exception and
returns `[]`. -/
def extractKeyEntities (jsonLoadsArr : String → Option (List String))
    (llmInvoke : Except String String) : Except String (List String) :=
  match llmInvoke.bind (entitySpanResult jsonLoadsArr) with
  | .ok r => .ok r
  | .error _ => .ok []

lemma extractKeyEntities_ok (jsonLoadsArr : String → Option (List String))
    (r : String) :
    extractKeyEntities jsonLoadsArr (Except.ok r) =
      match entitySpanResult jsonLoadsArr r with
      | .ok l => Except.ok l
      | .error _ => Except.ok [] := rfl

lemma pySplitChar_ne_nil (c : Char) (l : List Char) : pySplitChar c l ≠ [] := by
  induction l with
  | nil => simp [pySplitChar]
  | cons x xs ih =>
    unfold pySplitChar
    split
    · simp
    · match hx : pySplitChar c xs with
      | [] => exact absurd hx ih
      | h :: t => simp

lemma joinSpace_cons_cons (x : Char) (h : List Char) (t : List (List Char)) :
    joinSpace ((x :: h) :: t) = x :: joinSpace (h :: t) := by
  cases t <;> rfl

lemma joinSpace_nil_cons (r : List Char) (t : List (List Char)) :
    joinSpace ([] :: r :: t) = ' ' :: joinSpace (r :: t) := rfl

/-- `" ".join(s.split(c))` replaces every occurrence of `c` by a space. -/
lemma joinSpace_splitChar (c : Char) (l : List Char) :
    joinSpace (pySplitChar c l) = l.map (fun x => if x = c then ' ' else x) := by
  induction l with
  | nil => rfl
  | cons x xs ih =>
    unfold pySplitChar
    by_cases hx : x = c
    · rw [if_pos hx]
      rcases List.exists_cons_of_ne_nil (pySplitChar_ne_nil c xs) with ⟨r, t, hrt⟩
      rw [hrt, joinSpace_nil_cons, ← hrt, ih]
      simp [hx]
    · rw [if_neg hx]
      match hsx : pySplitChar c xs with
      | [] => exact absurd hsx (pySplitChar_ne_nil c xs)
      | h :: t =>
        rw [joinSpace_cons_cons, ← hsx, ih]
        simp [hx]

lemma length_dropWhile_le (p : Char → Bool) (l : List Char) :
    (l.dropWhile p).length ≤ l.length := by
  induction l with
  | nil => simp
  | cons x xs ih =>
    rw [List.dropWhile_cons]
    split
    · exact Nat.le_succ_of_le ih
    · simp

lemma pyStripL_length_le (l : List Char) : (pyStripL l).length ≤ l.length := by
  unfold pyStripL
  rw [List.length_reverse]
  calc ((l.dropWhile Char.isWhitespace).reverse.dropWhile Char.isWhitespace).length
      ≤ (l.dropWhile Char.isWhitespace).reverse.length :=
        length_dropWhile_le _ _
    _ = (l.dropWhile Char.isWhitespace).length := List.length_reverse _
    _ ≤ l.length := length_dropWhile_le _ _

lemma pyTake_length_le (n : Nat) (s : String) : (pyTake n s).length ≤ n := by
  show (s.data.take n).length ≤ n
  rw [List.length_take]
  exact Nat.min_le_left _ _

lemma pyStrip_length_le (s : String) : (pyStrip s).length ≤ s.length := by
  show (pyStripL s.data).length ≤ s.data.length
  exact pyStripL_length_le s.data

/-- C5 counterexample: the empty response contains no valid JSON object, yet
the fallback summary is the empty string, not a non-empty one. -/
theorem fallback_summary_empty_on_empty_response :
    noValidJsonFound (fun _ => none) "" ∧
    List.lookup "summary" (parseResponse (fun _ => none) "") = some "" := by
  constructor
  · exact Or.inr rfl
  · rfl

/-- C5 (amended): when no valid JSON object is found, parsing yields topic
`"Uncategorized"` and a summary equal to the response's lines joined with
single spaces and truncated to 200 characters; that summary is at most 200
characters long, and it is non-empty whenever the stripped response is
non-empty (for an all-whitespace response it is empty). -/
theorem fallback_parse_shape (jsonLoads : String → Option ParsedObj)
    (response : String) (h : noValidJsonFound jsonLoads response) :
    parseResponse jsonLoads response = fallbackParse response ∧
    List.lookup "topic" (parseResponse jsonLoads response) = some "Uncategorized" ∧
    List.lookup "summary" (parseResponse jsonLoads response) =
      some (pyTake 200 ⟨joinSpace (pySplitChar '\n' (pyStripL response.data))⟩) ∧
    (pyTake 200 ⟨joinSpace (pySplitChar '\n' (pyStripL response.data))⟩).length ≤ 200 ∧
    (pyStripL response.data ≠ [] →
      pyTake 200 ⟨joinSpace (pySplitChar '\n' (pyStripL response.data))⟩ ≠ "") := by
  have hfb : parseResponse jsonLoads response = fallbackParse response := by
    unfold parseResponse
    by_cases hc : hasObjSpan response
    · rw [if_pos hc, h.resolve_left (fun hna => hna hc)]
    · rw [if_neg hc]
  refine ⟨hfb, ?_, ?_, pyTake_length_le _ _, ?_⟩
  · rw [hfb]; rfl
  · rw [hfb]; rfl
  · intro hne heq
    have hdata : ((⟨joinSpace (pySplitChar '\n' (pyStripL response.data))⟩ :
        String).data.take 200) = [] := congrArg String.data heq
    have hjs : joinSpace (pySplitChar '\n' (pyStripL response.data)) ≠ [] := by
      rw [joinSpace_splitChar]
      simp only [ne_eq, List.map_eq_nil_iff]
      exact hne
    rcases List.take_eq_nil_iff.1 hdata with h2 | h2
    · exact absurd h2 (by norm_num)
    · exact hjs h2

/-- C5 witness: the amended theorem on a concrete free-text response. -/
theorem fallback_parse_witness :
    parseResponse (fun _ => none) "no json here" =
      fallbackParse "no json here" ∧
    List.lookup "topic" (parseResponse (fun _ => none) "no json here") =
      some "Uncategorized" ∧
    List.lookup "summary" (parseResponse (fun _ => none) "no json here") =
      some (pyTake 200 ⟨joinSpace (pySplitChar '\n' (pyStripL "no json here".data))⟩) ∧
    (pyTake 200 ⟨joinSpace (pySplitChar '\n' (pyStripL "no json here".data))⟩).length ≤ 200 ∧
    (pyStripL "no json here".data ≠ [] →
      pyTake 200 ⟨joinSpace (pySplitChar '\n' (pyStripL "no json here".data))⟩ ≠ "") :=
  fallback_parse_shape (fun _ => none) "no json here" (by decide)

/-- C7: the analyzer never raises to its caller: on a model-call exception
`generate_topic_and_summary` returns the Uncategorized/Failed-to-process
dictionary carrying the message, and always returns normally; and
`extract_key_entities` returns `[]` on a call error, returns normally on any
response, and returns `[]` whenever `json.loads` fails on it. -/
theorem analyzer_never_raises (jsonLoads : String → Option ParsedObj)
    (jsonLoadsArr : String → Option (List String)) (e response : String) :
    generateTopicAndSummary jsonLoads (Except.error e) =
      Except.ok [("topic", "Uncategorized"), ("summary", "Failed to process"), ("error", e)] ∧
    (∃ d, generateTopicAndSummary jsonLoads (Except.ok response) = Except.ok d) ∧
    extractKeyEntities jsonLoadsArr (Except.error e) = Except.ok [] ∧
    (∃ l, extractKeyEntities jsonLoadsArr (Except.ok response) = Except.ok l) ∧
    ((∀ s, jsonLoadsArr s = none) →
      extractKeyEntities jsonLoadsArr (Except.ok response) = Except.ok []) := by
  refine ⟨rfl, ⟨parseResponse jsonLoads response, rfl⟩, rfl, ?_, ?_⟩
  · rw [extractKeyEntities_ok]
    cases entitySpanResult jsonLoadsArr response with
    | ok l => exact ⟨l, rfl⟩
    | error _ => exact ⟨[], rfl⟩
  · intro hfail
    rw [extractKeyEntities_ok]
    have hcase : entitySpanResult jsonLoadsArr response = Except.ok [] ∨
        entitySpanResult jsonLoadsArr response = Except.error "JSONDecodeError" := by
      unfold entitySpanResult
      split
      · rw [hfail]; exact Or.inr rfl
      · exact Or.inl rfl
    rcases hcase with h1 | h1 <;> rw [h1]

/-- C7 witness: the never-raises theorem at a concrete failing parser and a
concrete response. -/
theorem analyzer_never_raises_witness :
    extractKeyEntities (fun _ => none) (Except.ok "some response") = Except.ok [] :=
  (analyzer_never_raises (fun _ => none) (fun _ => none) "boom" "some response").2.2.2.2
    (fun _ => rfl)

/-- C10: on every return path of `generate_topic_and_summary` (JSON parse
success, free-text fallback, model-call exception) the returned dictionary
has both a "topic" and a "summary" key, and the summary is at most 200
characters long. -/
theorem generate_dict_shape (jsonLoads : String → Option ParsedObj)
    (llmInvoke : Except String String) :
    ∃ d, generateTopicAndSummary jsonLoads llmInvoke = Except.ok d ∧
      (List.lookup "topic" d).isSome = true ∧
      ∃ s, List.lookup "summary" d = some s ∧ s.length ≤ 200 := by
  cases llmInvoke with
  | error e =>
    refine ⟨failedDict e, rfl, rfl, "Failed to process", rfl, by decide⟩
  | ok response =>
    refine ⟨parseResponse jsonLoads response, rfl, ?_, ?_⟩
    · unfold parseResponse
      by_cases hc : hasObjSpan response
      · rw [if_pos hc]
        cases jsonLoads (objSlice response) <;> rfl
      · rw [if_neg hc]; rfl
    · unfold parseResponse
      by_cases hc : hasObjSpan response
      · rw [if_pos hc]
        cases jsonLoads (objSlice response) with
        | some parsed =>
          exact ⟨pyStrip (pyTake 200 (parsed.summaryStr.getD "")), rfl,
            le_trans (pyStrip_length_le _) (pyTake_length_le _ _)⟩
        | none => exact ⟨_, rfl, pyTake_length_le _ _⟩
      · rw [if_neg hc]
        exact ⟨_, rfl, pyTake_length_le _ _⟩

/-! ## Orchestrator (src/main.py) and FileOrganizer (src/file_organizer.py)

`report.json` is modelled by `reportRead : Option (Except String Report)`:
`none` when `os.path.exists` is false, `some (.error e)` when `open`/`json.load`
raises, `some (.ok rep)` when the prior report loads.  The extractor, the
analyzer and the entity call for one document are oracles in a `DocOracle`;
`processBody` also returns the trace of component calls it made. -/

/-- One entry of the report's `processing_details` list. -/
structure ProcessingDetail where
  file : String
  topic : String
  summary : String
deriving DecidableEq

/-- The persisted report (`report.json`). -/
structure Report where
  totalFiles : Nat
  processed : Nat
  failed : Nat
  topicsIdentified : Nat
  topics : List (String × Nat × List String)
  processingDetails : List ProcessingDetail
deriving DecidableEq

/-- The per-document result dictionary built by `process_pdf`: its three
construction sites are the success record, the error record and the skip
record. -/
inductive PDFResult where
  | success (file : String) (metadata : List (String × String))
      (topic summary : String) (entities : List String)
  | error (file : String) (msg : String)
  | skipped (file : String)
deriving DecidableEq

/-- The `"status"` entry of a result record. -/
def PDFResult.status : PDFResult → String
  | .success _ _ _ _ _ => "success"
  | .error _ _ => "error"
  | .skipped _ => "skipped"

/-- The `"file"` entry of a result record. -/
def PDFResult.fileName : PDFResult → String
  | .success f _ _ _ _ => f
  | .error f _ => f
  | .skipped f => f

/-- `result["analysis"]["topic"]`; only read under the success guard. -/
def PDFResult.topicOf : PDFResult → String
  | .success _ _ t _ _ => t
  | _ => ""

/-- `result["analysis"]["summary"]`; only read under the success guard. -/
def PDFResult.summaryOf : PDFResult → String
  | .success _ _ _ s _ => s
  | _ => ""

/-- The component calls `process_pdf` can make for one document. -/
inductive Op where
  | extractOp
  | metadataOp
  | analyzeOp
  | entitiesOp
deriving DecidableEq

/-- Outcomes of the external calls for one document: text extraction,
metadata extraction (best-effort, never raises), topic/summary analysis and
entity extraction. -/
structure DocOracle where
  extractTextR : Except String String
  metadataR : List (String × String)
  analysisR : Except String (String × String)
  entitiesR : Except String (List String)

/-- `skip_these = [item["file"] for item in report_data.get("processing_details", [])]`. -/
def skipThese (rep : Report) : List String :=
  rep.processingDetails.map (fun d => d.file)

/-- The try-block of `process_pdf`: extract text, extract metadata, analyze,
extract entities; the except-clause converts any raise into an error record.
Also returns the trace of component calls made. -/
def processBody (env : DocOracle) (name : String) : PDFResult × List Op :=
  match env.extractTextR with
  | .error e => (.error name e, [.extractOp])
  | .ok _text =>
    match env.analysisR with
    | .error e => (.error name e, [.extractOp, .metadataOp, .analyzeOp])
    | .ok ts =>
      match env.entitiesR with
      | .error e => (.error name e, [.extractOp, .metadataOp, .analyzeOp, .entitiesOp])
      | .ok ents =>
        (.success name env.metadataR ts.1 ts.2 ents,
         [.extractOp, .metadataOp, .analyzeOp, .entitiesOp])

/-- `PDFProcessorOrchestrator.process_pdf`.  The skip check (reading and
parsing `report.json`) runs before — and outside — the try block, so a raise
there propagates to the caller. -/
def processPdfExc (reportRead : Option (Except String Report)) (env : DocOracle)
    (name : String) : Except String (PDFResult × List Op) :=
  match reportRead with
  | some (.error e) => .error e
  | some (.ok rep) =>
    if name ∈ skipThese rep then .ok (.skipped name, [])
    else .ok (processBody env name)
  | none => .ok (processBody env name)

/-- The dictionary returned by `process_batch`: `total` is `none` in the
empty-directory branch, whose return dictionary carries no `"total"` key. -/
structure BatchResult where
  processed : Nat
  failed : Nat
  total : Option Nat
  results : List PDFResult
deriving DecidableEq

/-- `PDFProcessorOrchestrator.process_batch`: early return on an empty file
list, otherwise one `process_pdf` per file, counting successes and errors. -/
def processBatchExc (reportRead : Option (Except String Report))
    (files : List (String × DocOracle)) : Except String BatchResult :=
  if files.isEmpty then Except.ok ⟨0, 0, none, []⟩
  else
    (files.foldlM (fun (acc : Nat × Nat × List PDFResult) fd =>
        (processPdfExc reportRead fd.2 fd.1).map (fun r =>
          (acc.1 + (if r.1.status = "success" then 1 else 0),
           acc.2.1 + (if r.1.status = "error" then 1 else 0),
           acc.2.2 ++ [r.1])))
      (0, 0, [])).map (fun acc => ⟨acc.1, acc.2.1, some files.length, acc.2.2⟩)

/-- Append a destination under a topic key of the `organized` dictionary. -/
def addToTopic (organized : List (String × List String)) (topic dest : String) :
    List (String × List String) :=
  if organized.any (fun p => p.1 == topic) then
    organized.map (fun p => if p.1 == topic then (p.1, p.2 ++ [dest]) else p)
  else organized ++ [(topic, [dest])]

/-- `FileOrganizer.organize_by_topic` in subdirectory mode: for each mapped
file, copy it into the sanitized topic folder; a copy failure drops the file
from the returned mapping, which is keyed by the unsanitized topic. -/
def organizeByTopic (copyFails : String → Bool)
    (fileMappings : List (String × String)) : List (String × List String) :=
  fileMappings.foldl (fun organized fm =>
    if copyFails fm.1 then organized
    else addToTopic organized fm.2 (sanitizeFolderName fm.2 ++ "/" ++ fm.1)) []

/-- The file→topic mappings `organize_files` builds from success results. -/
def successMappings (results : List PDFResult) : List (String × String) :=
  results.filterMap (fun r => match r with
    | .success f _ t _ _ => some (f, t)
    | _ => none)

/-- `PDFProcessorOrchestrator.organize_files`: early return of the empty
mapping when no file succeeded, otherwise organize by topic. -/
def organizeFiles (copyFails : String → Bool) (results : List PDFResult) :
    List (String × List String) :=
  if (successMappings results).isEmpty then []
  else organizeByTopic copyFails (successMappings results)

/-- Python `Path(p).name`: the last `/`-separated component. -/
def baseNameOf (p : String) : String := ⟨(pySplitChar '/' p.data).getLastD []⟩

/-- `PDFProcessorOrchestrator._generate_report`: summary counts (with
`batch_results.get("total", 0)` defaulting a missing key to `0`), per-topic
file lists, and `processing_details` entries for the success results only. -/
def generateReport (batch : BatchResult) (organized : List (String × List String)) :
    Report :=
  { totalFiles := batch.total.getD 0
  , processed := batch.processed
  , failed := batch.failed
  , topicsIdentified := organized.length
  , topics := organized.map (fun tf => (tf.1, tf.2.length, tf.2.map baseNameOf))
  , processingDetails := (batch.results.filter (fun r => r.status == "success")).map
      (fun r => ⟨r.fileName, r.topicOf, r.summaryOf⟩) }

/-- A document environment whose calls all succeed. -/
def exEnv : DocOracle :=
  ⟨Except.ok "text", [("title", "Unknown")], Except.ok ("T", "S"), Except.ok []⟩

/-- A prior report whose `processing_details` lists `a.pdf`. -/
def exReport : Report :=
  ⟨1, 1, 0, 1, [("T", 1, ["a.pdf"])], [⟨"a.pdf", "T", "S"⟩]⟩

lemma processPdfExc_some_ok (rep : Report) (env : DocOracle) (name : String) :
    processPdfExc (some (Except.ok rep)) env name =
      if name ∈ skipThese rep then Except.ok (PDFResult.skipped name, [])
      else Except.ok (processBody env name) := rfl

/-- C1: a file whose name appears in the prior report's `processing_details`
is skipped — `process_pdf` returns the `skipped` record and makes no
extraction, metadata, analysis or entity call — for every possible outcome of
those calls (the decision is keyed purely on the filename). -/
theorem skip_returns_skipped (rep : Report) (env : DocOracle) (name : String)
    (h : name ∈ skipThese rep) :
    processPdfExc (some (Except.ok rep)) env name =
      Except.ok (PDFResult.skipped name, []) ∧
    (PDFResult.skipped name).status = "skipped" := by
  refine ⟨?_, rfl⟩
  rw [processPdfExc_some_ok, if_pos h]

/-- C1 witness: skipping `a.pdf` against a concrete prior report. -/
theorem skip_witness :
    processPdfExc (some (Except.ok exReport)) exEnv "a.pdf" =
      Except.ok (PDFResult.skipped "a.pdf", []) ∧
    (PDFResult.skipped "a.pdf").status = "skipped" :=
  skip_returns_skipped exReport exEnv "a.pdf" (by decide)

/-- C2 counterexample: an exception while reading the prior report inside
`process_pdf` (the skip check runs outside the try block) is not converted
into an error record: it propagates and aborts the whole batch, though it is
neither a report-write error nor an initialization failure. -/
theorem report_read_error_aborts_batch :
    processPdfExc (some (Except.error "JSONDecodeError")) exEnv "a.pdf" =
      Except.error "JSONDecodeError" ∧
    processBatchExc (some (Except.error "JSONDecodeError")) [("a.pdf", exEnv)] =
      Except.error "JSONDecodeError" :=
  ⟨rfl, rfl⟩

lemma foldlM_except_ok {α β : Type} (step : β → α → Except String β)
    (hstep : ∀ b a, ∃ c, step b a = Except.ok c) :
    ∀ (l : List α) (init : β), ∃ out, l.foldlM step init = Except.ok out := by
  intro l
  induction l with
  | nil => exact fun init => ⟨init, rfl⟩
  | cons a as ih =>
    intro init
    rcases hstep init a with ⟨c, hc⟩
    rcases ih c with ⟨out, hout⟩
    refine ⟨out, ?_⟩
    rw [List.foldlM_cons, hc]
    exact hout

/-- C2 (amended): when the prior-report read does not raise, every exception
raised inside the try block is caught at the per-document boundary and
converted into a `status: "error"` result record carrying the exception's
message — whether the extractor, the analyzer or the entity call raised —
`process_pdf` always returns a result record (the skip record or the try
block's record), and the batch loop always completes with a batch summary;
only a raising `report.json` read (see the counterexample), a report-write
error or an initialization failure can abort the run. -/
theorem per_document_errors_caught (reportRead : Option (Except String Report))
    (h : ∀ e, reportRead ≠ some (Except.error e))
    (files : List (String × DocOracle)) :
    (∀ env name e, env.extractTextR = Except.error e →
      (processBody env name).1 = PDFResult.error name e ∧
      (processBody env name).1.status = "error") ∧
    (∀ env name e txt, env.extractTextR = Except.ok txt →
      env.analysisR = Except.error e →
      (processBody env name).1 = PDFResult.error name e ∧
      (processBody env name).1.status = "error") ∧
    (∀ env name e txt ts, env.extractTextR = Except.ok txt →
      env.analysisR = Except.ok ts → env.entitiesR = Except.error e →
      (processBody env name).1 = PDFResult.error name e ∧
      (processBody env name).1.status = "error") ∧
    (∀ env name, ∃ r, processPdfExc reportRead env name = Except.ok r ∧
      (r.1 = PDFResult.skipped name ∨ r.1 = (processBody env name).1)) ∧
    (∃ b, processBatchExc reportRead files = Except.ok b) := by
  have hpdf : ∀ env name, ∃ r, processPdfExc reportRead env name = Except.ok r ∧
      (r.1 = PDFResult.skipped name ∨ r.1 = (processBody env name).1) := by
    intro env name
    cases hrr : reportRead with
    | none => exact ⟨_, rfl, Or.inr rfl⟩
    | some inner =>
      cases inner with
      | ok rep =>
        rw [processPdfExc_some_ok]
        by_cases hm : name ∈ skipThese rep
        · rw [if_pos hm]; exact ⟨_, rfl, Or.inl rfl⟩
        · rw [if_neg hm]; exact ⟨_, rfl, Or.inr rfl⟩
      | error e => exact absurd hrr (h e)
  refine ⟨?_, ?_, ?_, hpdf, ?_⟩
  · intro env name e hx
    simp only [processBody, hx]
    exact ⟨trivial, rfl⟩
  · intro env name e txt hx ha
    simp only [processBody, hx, ha]
    exact ⟨trivial, rfl⟩
  · intro env name e txt ts hx ha hent
    simp only [processBody, hx, ha, hent]
    exact ⟨trivial, rfl⟩
  unfold processBatchExc
  by_cases hemp : files.isEmpty
  · rw [if_pos hemp]; exact ⟨_, rfl⟩
  · rw [if_neg hemp]
    have hstep : ∀ (acc : Nat × Nat × List PDFResult) (fd : String × DocOracle),
        ∃ c, (processPdfExc reportRead fd.2 fd.1).map (fun r =>
          (acc.1 + (if r.1.status = "success" then 1 else 0),
           acc.2.1 + (if r.1.status = "error" then 1 else 0),
           acc.2.2 ++ [r.1])) = Except.ok c := by
      intro acc fd
      rcases hpdf fd.2 fd.1 with ⟨r, hr, _⟩
      rw [hr]
      exact ⟨_, rfl⟩
    rcases foldlM_except_ok _ hstep files (0, 0, []) with ⟨acc, hacc⟩
    rw [hacc]
    exact ⟨_, rfl⟩

/-- A document environment whose text extraction raises. -/
def failEnv : DocOracle :=
  ⟨Except.error "boom", [], Except.ok ("T", "S"), Except.ok []⟩

/-- C2 witness: the amended theorem with no prior report, a concrete failing
extraction converted into the error record, and a one-document batch. -/
theorem per_document_errors_caught_witness :
    (processBody failEnv "a.pdf").1 = PDFResult.error "a.pdf" "boom" ∧
    (processBody failEnv "a.pdf").1.status = "error" ∧
    (∃ r, processPdfExc none failEnv "a.pdf" = Except.ok r ∧
      (r.1 = PDFResult.skipped "a.pdf" ∨ r.1 = (processBody failEnv "a.pdf").1)) ∧
    (∃ b, processBatchExc none [("a.pdf", exEnv)] = Except.ok b) := by
  have h := per_document_errors_caught none (fun _ h => Option.noConfusion h)
    [("a.pdf", exEnv)]
  exact ⟨(h.1 failEnv "a.pdf" "boom" rfl).1, (h.1 failEnv "a.pdf" "boom" rfl).2,
    h.2.2.2.1 failEnv "a.pdf", h.2.2.2.2⟩

/-- C3 counterexample: on an empty directory `process_batch` returns a
dictionary with no `"total"` key at all (modelled as `total = none`), not one
reporting `total = 0`. -/
theorem empty_batch_omits_total_key :
    processBatchExc none [] = Except.ok ⟨0, 0, none, []⟩ ∧
    (⟨0, 0, none, []⟩ : BatchResult).total ≠ some 0 :=
  ⟨rfl, by decide⟩

/-- C3 (amended): on a directory with zero `.pdf` files, `process_batch`
returns processed = 0 and failed = 0 and omits the `"total"` key; zero topics
are organized; and the written report shows `total_files = 0` (via the
`.get("total", 0)` default), `topics_identified = 0` and an empty topics
mapping. -/
theorem empty_dir_report_zeroes (reportRead : Option (Except String Report))
    (copyFails : String → Bool) :
    processBatchExc reportRead [] = Except.ok ⟨0, 0, none, []⟩ ∧
    organizeFiles copyFails [] = [] ∧
    generateReport ⟨0, 0, none, []⟩ (organizeFiles copyFails []) =
      ⟨0, 0, 0, 0, [], []⟩ :=
  ⟨rfl, rfl, rfl⟩

/-- C6: the report's `processing_details` list contains an entry exactly for
each result whose status is `"success"`; error and skipped results never
appear in it. -/
theorem details_only_success (batch : BatchResult)
    (organized : List (String × List String)) :
    (∀ d ∈ (generateReport batch organized).processingDetails,
      ∃ r ∈ batch.results, r.status = "success" ∧
        d = ⟨r.fileName, r.topicOf, r.summaryOf⟩) ∧
    (∀ r ∈ batch.results, r.status = "success" →
      (⟨r.fileName, r.topicOf, r.summaryOf⟩ : ProcessingDetail) ∈
        (generateReport batch organized).processingDetails) := by
  constructor
  · intro d hd
    simp only [generateReport] at hd
    rcases List.mem_map.1 hd with ⟨r, hr, hdr⟩
    rcases List.mem_filter.1 hr with ⟨hrm, hrs⟩
    exact ⟨r, hrm, by simpa using hrs, hdr.symm⟩
  · intro r hr hs
    simp only [generateReport]
    exact List.mem_map.2 ⟨r, List.mem_filter.2 ⟨hr, by simp [hs]⟩, rfl⟩

/-- A batch holding one success, one error and one skipped result. -/
def exBatch : BatchResult :=
  ⟨1, 1, some 3,
   [PDFResult.success "a.pdf" [] "T" "S" [],
    PDFResult.error "b.pdf" "boom",
    PDFResult.skipped "c.pdf"]⟩

/-- C6 witness: the success result of a concrete mixed batch appears in the
report's details. -/
theorem details_only_success_witness :
    (⟨"a.pdf", "T", "S"⟩ : ProcessingDetail) ∈
      (generateReport exBatch []).processingDetails :=
  (details_only_success exBatch []).2
    (PDFResult.success "a.pdf" [] "T" "S" []) (by decide) rfl

end PDFBot
